import Mathlib

/-!
Verification development for the Fast SSC / Generalized Fast SSC polar-code
decoders (`fast_ssc_decoder.py`, `g_fast_ssc_decoder.py`).

Masks are embedded as `List Nat` (numpy int arrays of 0/1 values), LLR vectors
as `List Int` (the Python code uses floating-point LLRs; the collaborator
contracts in the spec are algebraic and are modelled over the integers).
Fallible Python code (raised exceptions, failed `np.split`) is embedded with
`Except String`.
-/

namespace PolarFastSSC

/-- Node type tags of `FastSSCNode` / `GeneralizedFastSSCNode`
(`ZERO_NODE = 'ZERO'`, `ONE_NODE = 'ONE'`, `SINGLE_PARITY_CHECK`,
`REPETITION`, `OTHER`, `G_REPETITION = 'G-REPETITION'`,
`RG_PARITY = 'RG-PARITY'`). -/
inductive NodeType where
  | ZERO_NODE
  | ONE_NODE
  | SINGLE_PARITY_CHECK
  | REPETITION
  | G_REPETITION
  | RG_PARITY
  | OTHER
deriving DecidableEq, Repr

/-- `FastSSCNode.SPC_MIN_SIZE = 4`. -/
def SPC_MIN_SIZE : Nat := 4

/-- `FastSSCNode.REPETITION_MIN_SIZE = 2`. -/
def REPETITION_MIN_SIZE : Nat := 2

/-- `GeneralizedFastSSCNode.MIN_CHUNKS = 2`. -/
def MIN_CHUNKS : Nat := 2

/-- `FastSSCNode._check_is_one`: `np.all(mask == 1)`. -/
def check_is_one (mask : List Nat) : Bool := mask.all (· == 1)

/-- `FastSSCNode._check_is_zero`: `np.all(mask == 0)`. -/
def check_is_zero (mask : List Nat) : Bool := mask.all (· == 0)

/-- `FastSSCNode._check_is_spc`: `mask[0] == 0 and np.sum(mask) == mask.size - 1`.
(`mask[0]` on an empty mask would raise in Python; `head? == some 0` is `false`
there, and every call site guards the call behind a positive size bound.) -/
def check_is_spc (mask : List Nat) : Bool :=
  mask.head? == some 0 && mask.sum == mask.length - 1

/-- `FastSSCNode._check_is_parity`: `mask[-1] == 1 and np.sum(mask) == 1`. -/
def check_is_parity (mask : List Nat) : Bool :=
  mask.getLast? == some 1 && mask.sum == 1

/-- `FastSSCNode.zero_min_size`: `self.M or 1` (the `N_min` floor `M` is
falsy exactly when it is `0`/`None`). -/
def zero_min_size (M : Nat) : Nat := if M = 0 then 1 else M

/-- `FastSSCNode.one_min_size`: `return self.zero_min_size`. -/
def one_min_size (M : Nat) : Nat := zero_min_size M

/-- `FastSSCNode.repetition_min_size`: `self.M or self.REPETITION_MIN_SIZE`. -/
def repetition_min_size (M : Nat) : Nat := if M = 0 then REPETITION_MIN_SIZE else M

/-- `FastSSCNode.spc_min_size`: `self.M or self.SPC_MIN_SIZE`. -/
def spc_min_size (M : Nat) : Nat := if M = 0 then SPC_MIN_SIZE else M

/-- `FastSSCNode.get_node_type`, with the four guarded checks in source
order (ZERO, ONE, SINGLE_PARITY_CHECK, REPETITION, else OTHER); each
condition keeps the source's operand order (`check and size-gate` for
ZERO/ONE, `size-gate and check` for SPC/REPETITION). -/
def get_node_type (M : Nat) (mask : List Nat) : NodeType :=
  if check_is_zero mask && decide (zero_min_size M ≤ mask.length) then .ZERO_NODE
  else if check_is_one mask && decide (one_min_size M ≤ mask.length) then .ONE_NODE
  else if decide (spc_min_size M ≤ mask.length) && check_is_spc mask then .SINGLE_PARITY_CHECK
  else if decide (repetition_min_size M ≤ mask.length) && check_is_parity mask then .REPETITION
  else .OTHER

/-- Membership condition of the ZERO type as the spec words it
(mask all-frozen, `N` at least the zero minimum size). -/
def zero_member (M : Nat) (mask : List Nat) : Bool :=
  mask.all (· == 0) && decide (zero_min_size M ≤ mask.length)

/-- Membership condition of the ONE type as the spec words it. -/
def one_member (M : Nat) (mask : List Nat) : Bool :=
  mask.all (· == 1) && decide (one_min_size M ≤ mask.length)

/-- Membership condition of the SINGLE_PARITY_CHECK type as the spec words
it: first element 0, exactly `N - 1` ones, size gate. -/
def spc_member (M : Nat) (mask : List Nat) : Bool :=
  mask.head? == some 0 && mask.count 1 == mask.length - 1
    && decide (spc_min_size M ≤ mask.length)

/-- Membership condition of the REPETITION type as the spec words it:
last element 1, exactly one 1 overall, size gate. -/
def rep_member (M : Nat) (mask : List Nat) : Bool :=
  mask.getLast? == some 1 && mask.count 1 == 1
    && decide (repetition_min_size M ≤ mask.length)

/-- First matching type in the spec's priority order
ZERO, ONE, SINGLE_PARITY_CHECK, REPETITION (else OTHER). -/
def priority_first (M : Nat) (mask : List Nat) : NodeType :=
  if zero_member M mask then .ZERO_NODE
  else if one_member M mask then .ONE_NODE
  else if spc_member M mask then .SINGLE_PARITY_CHECK
  else if rep_member M mask then .REPETITION
  else .OTHER

/-- `def splits(start, end)` of `g_fast_ssc_decoder.py`: yields
`start, 2*start, 4*start, ...` while `start <= end`.  Structural fuel
(`e + 1` steps always suffice for the source's call site `start = 2`;
the Python generator would loop forever only for `start = 0`, which the
source never uses). -/
def splits_go : Nat → Nat → Nat → List Nat
  | 0, _, _ => []
  | fuel + 1, s, e => if s ≤ e then s :: splits_go fuel (2 * s) e else []

/-- `splits(start, end)` with sufficient fuel. -/
def splits (s e : Nat) : List Nat := splits_go (e + 1) s e

/-- Cuts `t` successive chunks of length `k` off a list. -/
def np_split_go : Nat → Nat → List Nat → List (List Nat)
  | 0, _, _ => []
  | t + 1, k, l => l.take k :: np_split_go t k (l.drop k)

/-- `np.split(mask, t)`: `t` equal sections, raising
`ValueError: array split does not result in an equal division` when `t`
does not divide the length. -/
def np_split (mask : List Nat) (t : Nat) : Except String (List (List Nat)) :=
  if 0 < t ∧ mask.length % t = 0 then .ok (np_split_go t (mask.length / t) mask)
  else .error "array split does not result in an equal division"

/-- Loop body of `GeneralizedFastSSCNode._check_is_g_repetition` over the
candidate chunk counts `t`; on success returns `(mask_steps, last_chunk_type)`
(the attributes the source assigns before returning `True`). -/
def check_g_repetition_go (mask : List Nat) :
    List Nat → Except String (Option (Nat × Nat))
  | [] => .ok none
  | t :: ts => do
      let chunks ← np_split mask t
      match chunks.getLast? with
      | none => .error "IndexError: list index out of range"
      | some last =>
        let last_ok :=
          (check_is_spc last && decide (REPETITION_MIN_SIZE ≤ last.length))
            || check_is_one last
        if last_ok then
          if chunks.dropLast.all check_is_zero then
            .ok (some (t, if check_is_one last then 1 else 0))
          else check_g_repetition_go mask ts
        else check_g_repetition_go mask ts

/-- `GeneralizedFastSSCNode._check_is_g_repetition`: tries
`t ∈ splits(MIN_CHUNKS, N // 2)` in order. -/
def check_is_g_repetition (mask : List Nat) : Except String (Option (Nat × Nat)) :=
  check_g_repetition_go mask (splits MIN_CHUNKS (mask.length / 2))

/-- Loop body of `GeneralizedFastSSCNode._check_is_rg_parity`; on success
returns `mask_steps`. The `ones`/`spcs` tallies mirror the source's
`if is_one ... elif size >= SPC_MIN_SIZE and is_spc ...` over `chunks[1:]`. -/
def check_rg_parity_go (AF : Nat) (mask : List Nat) :
    List Nat → Except String (Option Nat)
  | [] => .ok none
  | t :: ts => do
      let chunks ← np_split mask t
      match chunks.head? with
      | none => .error "IndexError: list index out of range"
      | some first =>
        if check_is_zero first then
          let rest := chunks.drop 1
          let ones := rest.countP (fun c => check_is_one c)
          let spcs := rest.countP
            (fun c => !check_is_one c && decide (SPC_MIN_SIZE ≤ c.length)
              && check_is_spc c)
          if ones + spcs + 1 = t ∧ spcs ≤ AF then .ok (some t)
          else check_rg_parity_go AF mask ts
        else check_rg_parity_go AF mask ts

/-- `GeneralizedFastSSCNode._check_is_rg_parity`. -/
def check_is_rg_parity (AF : Nat) (mask : List Nat) : Except String (Option Nat) :=
  check_rg_parity_go AF mask (splits MIN_CHUNKS (mask.length / 2))

/-- `GeneralizedFastSSCNode.get_node_type`: the base classification first;
if it is OTHER, the G-repetition check, then the RG-parity check.  Returns
the type together with the memoized `mask_steps` and `last_chunk_type`
(initialized `None` in `__init__`, assigned only by a successful check). -/
def gen_get_node_type (AF M : Nat) (mask : List Nat) :
    Except String (NodeType × Option Nat × Option Nat) := do
  let ntype := get_node_type M mask
  if ntype ≠ .OTHER then pure (ntype, none, none)
  else do
    let g ← check_is_g_repetition mask
    match g with
    | some (t, lct) => pure (.G_REPETITION, some t, some lct)
    | none => do
      let p ← check_is_rg_parity AF mask
      match p with
      | some t => pure (.RG_PARITY, some t, none)
      | none => pure (.OTHER, none, none)

/-- Decoding tree skeleton: a node is a leaf (no children) or an internal
node with exactly two children (the source always creates both). Internal
nodes are always OTHER-typed, so only leaves carry their tag. -/
inductive DTree where
  | leaf (mask : List Nat) (ntype : NodeType)
  | node (mask : List Nat) (l : DTree) (r : DTree)
deriving DecidableEq, Repr

/-- `FastSSCNode._build_decoding_tree` (and the identical generalized
override), parameterized by the classification function so that one
definition covers both decoder variants: stop on a simplified
(non-OTHER) node or at `mask.size == M`, otherwise `np.split(mask, 2)`
and recurse.  The structural fuel models Python's recursion limit: the
wrapper supplies `mask.length + 1` which strictly dominates the halving
recursion depth, and the empty-mask split (which recurses forever in
Python) is mapped to the same `RecursionError`. -/
def build_tree_go (classify : List Nat → Except String NodeType) (M : Nat) :
    Nat → List Nat → Except String DTree
  | 0, _ => .error "RecursionError: maximum recursion depth exceeded"
  | fuel + 1, mask =>
    match classify mask with
    | .error e => .error e
    | .ok t =>
      if t ≠ .OTHER then .ok (.leaf mask t)
      else if mask.length = M then .ok (.leaf mask t)
      else if mask.length = 0 then
        .error "RecursionError: maximum recursion depth exceeded"
      else if mask.length % 2 = 0 then
        match build_tree_go classify M fuel (mask.take (mask.length / 2)) with
        | .error e => .error e
        | .ok l =>
          match build_tree_go classify M fuel (mask.drop (mask.length / 2)) with
          | .error e => .error e
          | .ok r => .ok (.node mask l r)
      else .error "array split does not result in an equal division"

/-- Tree construction from the root mask (decoder `__init__` with
`N_min = code_min_size = M`). -/
def build_tree (classify : List Nat → Except String NodeType) (M : Nat)
    (mask : List Nat) : Except String DTree :=
  build_tree_go classify M (mask.length + 1) mask

/-- The classification function of the plain Fast SSC decoder. -/
def fast_classify (M : Nat) (mask : List Nat) : Except String NodeType :=
  .ok (get_node_type M mask)

/-- The classification function of the generalized decoder. -/
def gen_classify (AF M : Nat) (mask : List Nat) : Except String NodeType :=
  (gen_get_node_type AF M mask).map (fun x => x.1)

/-- A `FastSSCNode` with its per-call mutable state: the mask (immutable),
the node type (computed once at construction), the `alpha` LLR buffer, the
`beta` bit buffer and the `is_computed` flag.  The source splits a node
into exactly two children or none, so the embedding has a `leaf` and a
binary `node` constructor; internal nodes are always OTHER-typed (the tree
splits only OTHER nodes), so only leaves carry their tag. -/
inductive SNode where
  | leaf (mask : List Nat) (ntype : NodeType) (alpha : List Int)
      (beta : List Int) (is_computed : Bool)
  | node (mask : List Nat) (alpha : List Int) (beta : List Int)
      (is_computed : Bool) (l : SNode) (r : SNode)
deriving DecidableEq, Repr

/-- `FastSSCNode._mask`. -/
def SNode.mask : SNode → List Nat
  | .leaf m _ _ _ _ => m
  | .node m _ _ _ _ _ => m

/-- `FastSSCNode.alpha` (getter). -/
def SNode.alpha : SNode → List Int
  | .leaf _ _ a _ _ => a
  | .node _ a _ _ _ _ => a

/-- `FastSSCNode.beta` (getter). -/
def SNode.beta : SNode → List Int
  | .leaf _ _ _ b _ => b
  | .node _ _ b _ _ _ => b

/-- `FastSSCNode.is_computed`. -/
def SNode.computed : SNode → Bool
  | .leaf _ _ _ _ c => c
  | .node _ _ _ c _ _ => c

/-- The `alpha` property setter: raises `ValueError('Wrong size of LLR
vector')` when the assigned vector's size differs from the node's mask
size. -/
def SNode.set_alpha : SNode → List Int → Except String SNode
  | .leaf m t _ b c, v =>
      if m.length = v.length then .ok (.leaf m t v b c)
      else .error "Wrong size of LLR vector"
  | .node m _ b c l r, v =>
      if m.length = v.length then .ok (.node m v b c l r)
      else .error "Wrong size of LLR vector"

/-- The `beta` property setter: raises `ValueError('Wrong size of Bits
vector')` on size mismatch. -/
def SNode.set_beta : SNode → List Int → Except String SNode
  | .leaf m t a _ c, v =>
      if m.length = v.length then .ok (.leaf m t a v c)
      else .error "Wrong size of Bits vector"
  | .node m a _ c l r, v =>
      if m.length = v.length then .ok (.node m a v c l r)
      else .error "Wrong size of Bits vector"

/-- Plain assignment `node.is_computed = b` (no validation in the source). -/
def SNode.set_computed : SNode → Bool → SNode
  | .leaf m t a b _, c => .leaf m t a b c
  | .node m a b _ l r, c => .node m a b c l r

/-- `np.zeros(n)` as used for the initial `alpha`/`beta` buffers. -/
def np_zeros (n : Nat) : List Int := List.replicate n 0

/-- Initial node state built by `FastSSCNode.__init__`: `alpha` and `beta`
are zero vectors of the node's size, `is_computed` is `False`. -/
def init_node : DTree → SNode
  | .leaf m t => .leaf m t (np_zeros m.length) (np_zeros m.length) false
  | .node m l r =>
      .node m (np_zeros m.length) (np_zeros m.length) false (init_node l) (init_node r)

/-- Modelled from the spec: `functions.make_hard_decision` of
`python_polar_coding.polar_codes.base.functions` is not under `src/`;
the spec's collaborator contract says it "maps an LLR vector to a bit
vector by sign" with positive LLR meaning bit 0 and negative meaning
bit 1. -/
def make_hard_decision (llr : List Int) : List Int :=
  llr.map fun x => if x < 0 then 1 else 0

/-- Modelled from the spec: `functions.compute_repetition` is not under
`src/`; the spec says the repetition decision "outputs a uniform vector
from the combined reliability of all positions". -/
def compute_repetition (llr : List Int) : List Int :=
  if llr.sum < 0 then List.replicate llr.length 1 else List.replicate llr.length 0

/-- Index of the first entry of least absolute value (the least reliable
position), as `np.argmin(np.abs(llr))` would produce. -/
def arg_abs_min (llr : List Int) : Nat :=
  (List.range llr.length).foldl
    (fun best i => if |llr.getD i 0| < |llr.getD best 0| then i else best) 0

/-- Modelled from the spec: `functions.compute_single_parity_check` is
not under `src/`; the spec says it applies "majority hard decision with a
parity-fixup on the least reliable position". -/
def compute_single_parity_check (llr : List Int) : List Int :=
  let bits := make_hard_decision llr
  if bits.sum % 2 = 0 then bits
  else bits.set (arg_abs_min llr) (1 - bits.getD (arg_abs_min llr) 0)

/-- Modelled from the spec: `SCDecoder._compute_left_alpha` (the polar
"check" function f) is not under `src/`; the spec's contract is
`min(|a|,|b|) * sign(a) * sign(b)` over the two halves of the parent
LLR vector, returning a vector of half the combined length. -/
def compute_left_alpha (a : List Int) : List Int :=
  (List.zip (a.take (a.length / 2)) (a.drop (a.length / 2))).map
    fun p => p.1.sign * p.2.sign * min |p.1| |p.2|

/-- Modelled from the spec: `SCDecoder._compute_right_alpha` (the polar
"update" function g) is not under `src/`; the spec's contract is
`b + (1 - 2a) * c` with `c`/`b` the two halves of the parent LLR vector
and `a` the left sibling's bit. -/
def compute_right_alpha (a : List Int) (left_beta : List Int) : List Int :=
  List.zipWith (fun p b => p.2 + (1 - 2 * b) * p.1)
    (List.zip (a.take (a.length / 2)) (a.drop (a.length / 2))) left_beta

/-- `FastSSCNode.compute_leaf_beta`: raises
`TypeError('Cannot make decision in not a leaf node.')` on a node with
children, otherwise overwrites `_beta` according to the node type (the
source's four successive `if` statements over distinct type tags are one
case split; a leaf of any other type leaves `_beta` untouched). -/
def SNode.compute_leaf_beta : SNode → Except String SNode
  | .leaf m t a b c =>
      let beta' :=
        if t = .ZERO_NODE then np_zeros m.length
        else if t = .ONE_NODE then make_hard_decision a
        else if t = .SINGLE_PARITY_CHECK then compute_single_parity_check a
        else if t = .REPETITION then compute_repetition a
        else b
      .ok (.leaf m t a beta' c)
  | .node _ _ _ _ _ _ => .error "Cannot make decision in not a leaf node."

/-- `FastSSCDecoder.compute_parent_beta`:
`np.append((left + right) % 2, right)`. -/
def compute_parent_beta (left right : List Int) : List Int :=
  (List.zipWith (fun a b => (a + b) % 2) left right) ++ right

/-- One decode pass over a subtree whose `alpha` is being assigned the
vector `v` (through the property setter's size check), returning the
post-pass subtree and the total size of its leaves (the amount the
`_position` cursor advances).  This is `FastSSCDecoder.decode_internal`'s
left-to-right leaf walk restructured recursively: for each internal node
the loop's `compute_intermediate_alpha` assigns the left child
`f(parent_alpha)` (recomputed identically on every visit), decodes the
left subtree, then assigns the right child `g(parent_alpha, left_beta)`
and marks it computed, decodes the right subtree, and
`compute_intermediate_beta` combines the two sibling betas into the
parent's beta through the `beta` setter. -/
def process_with : List Int → SNode → Except String (SNode × Nat)
  | v, .leaf m t _ b c =>
      if m.length = v.length then
        match SNode.compute_leaf_beta (.leaf m t v b c) with
        | .ok s => .ok (s, m.length)
        | .error e => .error e
      else .error "Wrong size of LLR vector"
  | v, .node m _ b c l r =>
      if m.length = v.length then
        match process_with (compute_left_alpha v) l with
        | .error e => .error e
        | .ok (l₂, nl) =>
          match process_with (compute_right_alpha v l₂.beta) r with
          | .error e => .error e
          | .ok (r₂, nr) =>
            match (SNode.node m v b c l₂ (r₂.set_computed true)).set_beta
                (compute_parent_beta l₂.beta (r₂.set_computed true).beta) with
            | .error e => .error e
            | .ok p => .ok (p, nl + nr)
      else .error "Wrong size of LLR vector"

/-- Processing a tree whose root `alpha` has already been seeded. -/
def process_tree (s : SNode) : Except String (SNode × Nat) :=
  process_with s.alpha s

/-- `FastSSCDecoder` state: the decoding tree, the `_position` cursor and
the systematic flag. -/
structure FastSSCDecoder where
  decoding_tree : SNode
  position : Nat
  is_systematic : Bool
deriving DecidableEq, Repr

/-- Decoder as built by `FastSSCDecoder.__init__` over a constructed tree
(`_position = 0`, `is_systematic = True` by default). -/
def mk_decoder (t : DTree) : FastSSCDecoder :=
  { decoding_tree := init_node t, position := 0, is_systematic := true }

/-- The `for node in PreOrderIter(...): node.is_computed = False` loop of
`decode_internal`. -/
def reset_is_computed : SNode → SNode
  | .leaf m t a b _ => .leaf m t a b false
  | .node m a b _ l r => .node m a b false (reset_is_computed l) (reset_is_computed r)

/-- `FastSSCDecoder._set_initial_state`: resets `_position` to 0 and
assigns the received LLR vector to the root's `alpha` through the
property setter.  (The `current_state`/`previous_state` bookkeeping
belongs to the excluded `SCDecoder` base per the spec's scope.) -/
def set_initial_state (d : FastSSCDecoder) (llr : List Int) :
    Except String FastSSCDecoder :=
  match d.decoding_tree.set_alpha llr with
  | .error e => .error e
  | .ok root => .ok { d with position := 0, decoding_tree := root }

/-- Everything `decode_internal` does before the first leaf is processed:
`_set_initial_state` followed by the `is_computed` reset loop. -/
def reset_phase (d : FastSSCDecoder) (llr : List Int) :
    Except String FastSSCDecoder :=
  match set_initial_state d llr with
  | .error e => .error e
  | .ok d₁ => .ok { d₁ with decoding_tree := reset_is_computed d₁.decoding_tree }

/-- `FastSSCDecoder.result`: the root's `beta` for a systematic code,
`None` otherwise. -/
def result (d : FastSSCDecoder) : Option (List Int) :=
  if d.is_systematic then some d.decoding_tree.beta else none

/-- `FastSSCDecoder.decode_internal`: reset phase, then the left-to-right
leaf walk (`process_tree`), advancing `_position` by each leaf's size
(the per-leaf `set_next_state` increments telescope to the leaf-size
total), and finally `result`. -/
def decode_internal (d : FastSSCDecoder) (llr : List Int) :
    Except String (Option (List Int) × FastSSCDecoder) :=
  match reset_phase d llr with
  | .error e => .error e
  | .ok d₁ =>
    match process_tree d₁.decoding_tree with
    | .error e => .error e
    | .ok (t, n) =>
      let d₂ := { d₁ with decoding_tree := t, position := d₁.position + n }
      .ok (result d₂, d₂)

/-- The value a decode call returns to its caller. -/
def decodeResult (d : FastSSCDecoder) (llr : List Int) :
    Except String (Option (List Int)) :=
  (decode_internal d llr).map Prod.fst

/-- Masks of the tree's leaves in left-to-right order. -/
def leaves_masks : DTree → List (List Nat)
  | .leaf m _ => [m]
  | .node _ l r => leaves_masks l ++ leaves_masks r

/-- Concatenation of the leaves' masks in left-to-right order. -/
def leaves_concat (t : DTree) : List Nat := (leaves_masks t).flatten

/-- Leaf types whose `compute_leaf_beta` keeps `beta` untouched (all the
tags outside the four closed-form decisions of the plain decoder). -/
def beta_kept : NodeType → Bool
  | .ZERO_NODE => false
  | .ONE_NODE => false
  | .SINGLE_PARITY_CHECK => false
  | .REPETITION => false
  | _ => true

/-- The part of a node state a decode pass reads but never writes: the
structure, masks and types, and the `beta` of leaves outside the four
closed-form decisions.  Two states related by `ProcEqW` are
indistinguishable to every subsequent decode pass. -/
def ProcEqW : SNode → SNode → Prop
  | .leaf m t _ b _, .leaf m' t' _ b' _ =>
      m = m' ∧ t = t' ∧ (beta_kept t = true → b = b')
  | .node m _ _ _ l r, .node m' _ _ _ l' r' =>
      m = m' ∧ ProcEqW l l' ∧ ProcEqW r r'
  | _, _ => False

/-- `ProcEqW` strengthened with equality of all `is_computed` flags (the
shape two post-reset states share). -/
def ProcEqS : SNode → SNode → Prop
  | .leaf m t _ b c, .leaf m' t' _ b' c' =>
      m = m' ∧ t = t' ∧ c = c' ∧ (beta_kept t = true → b = b')
  | .node m _ _ c l r, .node m' _ _ c' l' r' =>
      m = m' ∧ c = c' ∧ ProcEqS l l' ∧ ProcEqS r r'
  | _, _ => False

/-- The `beta` buffers of the OTHER-typed leaves, in left-to-right order. -/
def other_leaf_betas : SNode → List (List Int)
  | .leaf _ t _ b _ => if t = .OTHER then [b] else []
  | .node _ _ _ _ l r => other_leaf_betas l ++ other_leaf_betas r

/-- Every `is_computed` flag of the subtree is `False`. -/
def all_not_computed : SNode → Bool
  | .leaf _ _ _ _ c => !c
  | .node _ _ _ c l r => !c && all_not_computed l && all_not_computed r

theorem procEqW_refl : ∀ s : SNode, ProcEqW s s := by
  intro s
  induction s with
  | leaf m t a b c => exact ⟨rfl, rfl, fun _ => rfl⟩
  | node m a b c l r ihl ihr => exact ⟨rfl, ihl, ihr⟩

theorem procEqW_symm : ∀ {s s' : SNode}, ProcEqW s s' → ProcEqW s' s := by
  intro s
  induction s with
  | leaf m t a b c =>
    intro s' h
    cases s' with
    | leaf m' t' a' b' c' =>
      obtain ⟨hm, ht, hb⟩ := h
      subst hm; subst ht
      exact ⟨rfl, rfl, fun hk => (hb hk).symm⟩
    | node _ _ _ _ _ _ => exact h.elim
  | node m a b c l r ihl ihr =>
    intro s' h
    cases s' with
    | leaf _ _ _ _ _ => exact h.elim
    | node m' a' b' c' l' r' =>
      obtain ⟨hm, hl, hr⟩ := h
      exact ⟨hm.symm, ihl hl, ihr hr⟩

theorem procEqW_trans : ∀ {s₁ s₂ s₃ : SNode},
    ProcEqW s₁ s₂ → ProcEqW s₂ s₃ → ProcEqW s₁ s₃ := by
  intro s₁
  induction s₁ with
  | leaf m t a b c =>
    intro s₂ s₃ h12 h23
    cases s₂ with
    | leaf m₂ t₂ a₂ b₂ c₂ =>
      cases s₃ with
      | leaf m₃ t₃ a₃ b₃ c₃ =>
        obtain ⟨hm, ht, hb⟩ := h12
        obtain ⟨hm', ht', hb'⟩ := h23
        subst hm; subst ht
        exact ⟨hm', ht', fun hk => (hb hk).trans (hb' hk)⟩
      | node _ _ _ _ _ _ => exact h23.elim
    | node _ _ _ _ _ _ => exact h12.elim
  | node m a b c l r ihl ihr =>
    intro s₂ s₃ h12 h23
    cases s₂ with
    | leaf _ _ _ _ _ => exact h12.elim
    | node m₂ a₂ b₂ c₂ l₂ r₂ =>
      cases s₃ with
      | leaf _ _ _ _ _ => exact h23.elim
      | node m₃ a₃ b₃ c₃ l₃ r₃ =>
        obtain ⟨hm, hl, hr⟩ := h12
        obtain ⟨hm', hl', hr'⟩ := h23
        exact ⟨hm.trans hm', ihl hl hl', ihr hr hr'⟩

theorem procEqW_mask : ∀ {s s' : SNode}, ProcEqW s s' → s.mask = s'.mask := by
  intro s s' h
  cases s <;> cases s' <;> first
    | exact h.elim
    | exact h.1

theorem procEqW_other_leaf_betas : ∀ {s s' : SNode}, ProcEqW s s' →
    other_leaf_betas s = other_leaf_betas s' := by
  intro s
  induction s with
  | leaf m t a b c =>
    intro s' h
    cases s' with
    | leaf m' t' a' b' c' =>
      obtain ⟨hm, ht, hb⟩ := h
      subst ht
      by_cases hO : t = .OTHER
      · subst hO
        simp [other_leaf_betas, hb rfl]
      · simp [other_leaf_betas, hO]
    | node _ _ _ _ _ _ => exact h.elim
  | node m a b c l r ihl ihr =>
    intro s' h
    cases s' with
    | leaf _ _ _ _ _ => exact h.elim
    | node m' a' b' c' l' r' =>
      obtain ⟨hm, hl, hr⟩ := h
      simp [other_leaf_betas, ihl hl, ihr hr]

theorem reset_alpha (s : SNode) : (reset_is_computed s).alpha = s.alpha := by
  cases s <;> rfl

theorem reset_all_not_computed : ∀ s : SNode,
    all_not_computed (reset_is_computed s) = true := by
  intro s
  induction s with
  | leaf m t a b c => rfl
  | node m a b c l r ihl ihr =>
    simp [reset_is_computed, all_not_computed, ihl, ihr]

theorem procEqW_reset : ∀ s : SNode, ProcEqW s (reset_is_computed s) := by
  intro s
  induction s with
  | leaf m t a b c => exact ⟨rfl, rfl, fun _ => rfl⟩
  | node m a b c l r ihl ihr => exact ⟨rfl, ihl, ihr⟩

theorem procEqS_reset : ∀ {s s' : SNode}, ProcEqW s s' →
    ProcEqS (reset_is_computed s) (reset_is_computed s') := by
  intro s
  induction s with
  | leaf m t a b c =>
    intro s' h
    cases s' with
    | leaf m' t' a' b' c' =>
      obtain ⟨hm, ht, hb⟩ := h
      exact ⟨hm, ht, rfl, hb⟩
    | node _ _ _ _ _ _ => exact h.elim
  | node m a b c l r ihl ihr =>
    intro s' h
    cases s' with
    | leaf _ _ _ _ _ => exact h.elim
    | node m' a' b' c' l' r' =>
      obtain ⟨hm, hl, hr⟩ := h
      exact ⟨hm, rfl, ihl hl, ihr hr⟩

theorem set_alpha_cases (s : SNode) (v : List Int) :
    (s.mask.length = v.length ∧ ∃ s₂, s.set_alpha v = .ok s₂ ∧
        s₂.alpha = v ∧ s₂.mask = s.mask ∧ ProcEqW s s₂)
    ∨ (s.mask.length ≠ v.length ∧ s.set_alpha v = .error "Wrong size of LLR vector") := by
  cases s with
  | leaf m t a b c =>
    by_cases h : m.length = v.length
    · exact .inl ⟨h, .leaf m t v b c, by simp [SNode.set_alpha, h], rfl, rfl,
        ⟨rfl, rfl, fun _ => rfl⟩⟩
    · exact .inr ⟨h, by simp only [SNode.set_alpha]; simp [h]⟩
  | node m a b c l r =>
    by_cases h : m.length = v.length
    · exact .inl ⟨h, .node m v b c l r, by simp [SNode.set_alpha, h], rfl, rfl,
        ⟨rfl, procEqW_refl l, procEqW_refl r⟩⟩
    · exact .inr ⟨h, by simp only [SNode.set_alpha]; simp [h]⟩

theorem set_beta_node (m : List Nat) (v b w : List Int) (c : Bool) (l r : SNode) :
    (SNode.node m v b c l r).set_beta w =
      if m.length = w.length then .ok (.node m v w c l r)
      else .error "Wrong size of Bits vector" := rfl

/-- Congruence of the decode pass: two states that agree on everything a
pass can read (structure, masks, types, flags, and the `beta` of leaves
the pass does not overwrite) are processed to literally equal results when
seeded with the same `alpha`. -/
theorem process_congr : ∀ (s : SNode) (s' : SNode) (v : List Int),
    ProcEqS s s' → process_with v s = process_with v s' := by
  intro s
  induction s with
  | leaf m t a b c =>
    intro s' v h
    cases s' with
    | leaf m' t' a' b' c' =>
      obtain ⟨hm, ht, hc, hb⟩ := h
      subst hm; subst ht; subst hc
      cases t with
      | ZERO_NODE => simp [process_with, SNode.compute_leaf_beta]
      | ONE_NODE => simp [process_with, SNode.compute_leaf_beta]
      | SINGLE_PARITY_CHECK => simp [process_with, SNode.compute_leaf_beta]
      | REPETITION => simp [process_with, SNode.compute_leaf_beta]
      | G_REPETITION => simp [process_with, SNode.compute_leaf_beta, hb rfl]
      | RG_PARITY => simp [process_with, SNode.compute_leaf_beta, hb rfl]
      | OTHER => simp [process_with, SNode.compute_leaf_beta, hb rfl]
    | node _ _ _ _ _ _ => exact h.elim
  | node m a b c l r ihl ihr =>
    intro s' v h
    cases s' with
    | leaf _ _ _ _ _ => exact h.elim
    | node m' a' b' c' l' r' =>
      obtain ⟨hm, hc, hl, hr⟩ := h
      subst hm; subst hc
      have el : ∀ w, process_with w l = process_with w l' := fun w => ihl l' w hl
      have er : ∀ w, process_with w r = process_with w r' := fun w => ihr r' w hr
      simp only [process_with, el, er, set_beta_node]

/-- A decode pass can only rewrite what `ProcEqW` ignores: the pass's
output state stays `ProcEqW`-related to its input state (in particular,
OTHER-leaf betas survive every pass untouched). -/
theorem process_procEqW : ∀ (s : SNode) (v : List Int) (p : SNode × Nat),
    process_with v s = .ok p → ProcEqW s p.1 := by
  intro s
  induction s with
  | leaf m t a b c =>
    intro v p hp
    simp only [process_with, SNode.compute_leaf_beta] at hp
    by_cases h : m.length = v.length
    · simp only [h, if_pos rfl] at hp
      obtain ⟨hp1, _⟩ := Prod.mk.injEq .. ▸ (Except.ok.injEq .. ▸ hp)
      refine hp1 ▸ ⟨rfl, rfl, fun hk => ?_⟩
      cases t <;> simp_all [beta_kept]
    · simp [h] at hp
  | node m a b c l r ihl ihr =>
    intro v p hp
    simp only [process_with] at hp
    by_cases h : m.length = v.length
    · simp only [h, if_pos rfl] at hp
      cases hl2 : process_with (compute_left_alpha v) l with
      | error e => simp [hl2] at hp
      | ok lp =>
        simp only [hl2] at hp
        cases hr2 : process_with (compute_right_alpha v lp.1.beta) r with
        | error e => simp [hr2] at hp
        | ok rp =>
          simp only [hr2] at hp
          simp only [SNode.set_beta] at hp
          by_cases h2 : m.length = (compute_parent_beta lp.1.beta (rp.1.set_computed true).beta).length
          · simp only [h2, if_pos rfl] at hp
            obtain ⟨hp1, _⟩ := Prod.mk.injEq .. ▸ (Except.ok.injEq .. ▸ hp)
            refine hp1 ▸ ⟨rfl, ihl (compute_left_alpha v) lp hl2, ?_⟩
            have hr3 := ihr (compute_right_alpha v lp.1.beta) rp hr2
            cases rp1 : rp.1 with
            | leaf _ _ _ _ _ =>
              rw [rp1] at hr3
              cases r with
              | leaf _ _ _ _ _ =>
                obtain ⟨e1, e2, e3⟩ := hr3
                exact ⟨e1, e2, e3⟩
              | node _ _ _ _ _ _ => exact hr3.elim
            | node _ _ _ _ _ _ =>
              rw [rp1] at hr3
              cases r with
              | leaf _ _ _ _ _ => exact hr3.elim
              | node _ _ _ _ _ _ =>
                obtain ⟨e1, e2, e3⟩ := hr3
                exact ⟨e1, e2, e3⟩
          · simp [h2] at hp
    · simp [h] at hp

/-- A full decode call leaves the decoder's tree `ProcEqW`-related to the
tree it started from, and never touches the systematic flag. -/
theorem decode_procEqW (d : FastSSCDecoder) (llr : List Int)
    (r : Option (List Int)) (d' : FastSSCDecoder)
    (h : decode_internal d llr = .ok (r, d')) :
    ProcEqW d.decoding_tree d'.decoding_tree ∧ d'.is_systematic = d.is_systematic := by
  simp only [decode_internal, reset_phase, set_initial_state] at h
  cases hsa : d.decoding_tree.set_alpha llr with
  | error e => simp [hsa] at h
  | ok root =>
    simp only [hsa] at h
    cases hp : process_tree (reset_is_computed root) with
    | error e => simp [hp] at h
    | ok tn =>
      obtain ⟨t, n⟩ := tn
      simp only [hp] at h
      have hWroot : ProcEqW d.decoding_tree root := by
        rcases set_alpha_cases d.decoding_tree llr with ⟨_, s₂, hok, _, _, hW⟩ | ⟨_, herr⟩
        · rw [hsa] at hok
          exact (Except.ok.injEq .. ▸ hok) ▸ hW
        · rw [hsa] at herr; exact absurd herr (by simp)
      have hWt : ProcEqW (reset_is_computed root) t :=
        process_procEqW _ _ (t, n) hp
      have hd' : d' = { d with decoding_tree := t, position := 0 + n } := by
        have := (Except.ok.injEq .. ▸ h)
        exact (Prod.mk.injEq .. ▸ this).2.symm
      rw [hd']
      exact ⟨procEqW_trans (procEqW_trans hWroot (procEqW_reset root)) hWt, rfl⟩

/-- The value a decode call returns depends only on the `ProcEqW`-class of
the tree, the systematic flag and the received LLRs: any two decoders
agreeing on those return identical results. -/
theorem decode_congr (da db : FastSSCDecoder) (llr : List Int)
    (hW : ProcEqW da.decoding_tree db.decoding_tree)
    (hs : da.is_systematic = db.is_systematic) :
    decodeResult da llr = decodeResult db llr := by
  have hmask := procEqW_mask hW
  rcases set_alpha_cases da.decoding_tree llr with ⟨hlen, a₂, hoka, hαa, _, hWa⟩ | ⟨hne, herra⟩
  · rcases set_alpha_cases db.decoding_tree llr with ⟨_, b₂, hokb, hαb, _, hWb⟩ | ⟨hneb, _⟩
    · have hab : ProcEqW a₂ b₂ := procEqW_trans (procEqW_trans (procEqW_symm hWa) hW) hWb
      have hproc : process_tree (reset_is_computed a₂) = process_tree (reset_is_computed b₂) := by
        unfold process_tree
        rw [reset_alpha, reset_alpha, hαa, hαb]
        exact process_congr _ _ llr (procEqS_reset hab)
      simp only [decodeResult, decode_internal, reset_phase, set_initial_state, hoka, hokb]
      rw [hproc]
      cases hq : process_tree (reset_is_computed b₂) with
      | error e => simp [hq]
      | ok tn => simp [hq, result, hs]
    · rw [hmask] at hlen
      exact absurd hlen hneb
  · rcases set_alpha_cases db.decoding_tree llr with ⟨hlenb, b₂, hokb, _, _, _⟩ | ⟨_, herrb⟩
    · rw [hmask] at hne
      exact absurd hlenb hne
    · simp only [decodeResult, decode_internal, reset_phase, set_initial_state, herra, herrb]

theorem build_go_leaves_concat : ∀ (fuel : Nat)
    (classify : List Nat → Except String NodeType) (M : Nat)
    (mask : List Nat) (t : DTree),
    build_tree_go classify M fuel mask = .ok t → leaves_concat t = mask := by
  intro fuel
  induction fuel with
  | zero => intro classify M mask t h; simp [build_tree_go] at h
  | succ fuel ih =>
    intro classify M mask t h
    simp only [build_tree_go] at h
    cases hc : classify mask with
    | error e => simp [hc] at h
    | ok ty =>
      simp only [hc] at h
      split at h
      · cases h
        simp [leaves_concat, leaves_masks]
      · split at h
        · cases h
          simp [leaves_concat, leaves_masks]
        · split at h
          · exact absurd h (by simp)
          · split at h
            · cases hl : build_tree_go classify M fuel (mask.take (mask.length / 2)) with
              | error e => simp [hl] at h
              | ok l =>
                simp only [hl] at h
                cases hr : build_tree_go classify M fuel (mask.drop (mask.length / 2)) with
                | error e => simp [hr] at h
                | ok r =>
                  simp only [hr] at h
                  cases h
                  have el := ih classify M _ l hl
                  have er := ih classify M _ r hr
                  simp only [leaves_concat, leaves_masks, List.flatten_append] at el er ⊢
                  rw [el, er, List.take_append_drop]
            · exact absurd h (by simp)

theorem get_node_type_gates_fail (M : Nat) (mask : List Nat) (hM : M ≠ 0)
    (hlt : mask.length < M) : get_node_type M mask = .OTHER := by
  have hn : ¬ (M ≤ mask.length) := Nat.not_le.mpr hlt
  simp [get_node_type, zero_min_size, one_min_size, spc_min_size,
    repetition_min_size, hM, hn]

theorem build_go_fail_of_small : ∀ (fuel M : Nat) (mask : List Nat), M ≠ 0 →
    mask.length < M → ∀ t, build_tree_go (fast_classify M) M fuel mask ≠ .ok t := by
  intro fuel
  induction fuel with
  | zero => intro M mask hM hlt t h; simp [build_tree_go] at h
  | succ fuel ih =>
    intro M mask hM hlt t h
    simp only [build_tree_go, fast_classify] at h
    rw [get_node_type_gates_fail M mask hM hlt] at h
    simp only [ne_eq, not_true_eq_false, if_false, Nat.ne_of_lt hlt, ite_false] at h
    by_cases h0 : mask.length = 0
    · simp [h0] at h
    · by_cases h2 : mask.length % 2 = 0
      · simp only [h0, if_false, h2, if_true, ite_true, ite_false] at h
        cases hl : build_tree_go (fast_classify M) M fuel (mask.take (mask.length / 2)) with
        | error e => simp [h0, h2, hl] at h
        | ok l =>
          refine ih M (mask.take (mask.length / 2)) hM ?_ l hl
          simp only [List.length_take]
          omega
      · simp [h0, h2] at h

theorem build_all_zero (N M : Nat) (t : DTree)
    (h : build_tree (fast_classify M) M (List.replicate N 0) = .ok t) :
    t = .leaf (List.replicate N 0) .ZERO_NODE ∨ (N = 0 ∧ t = .leaf [] .OTHER) := by
  have hchk : check_is_zero (List.replicate N 0) = true := by
    simp [check_is_zero, List.all_eq_true, List.mem_replicate]
  by_cases hM0 : M = 0
  · subst hM0
    cases N with
    | zero =>
      have e : build_tree (fast_classify 0) 0 (List.replicate 0 0) =
          .ok (.leaf [] .OTHER) := rfl
      rw [e] at h
      cases h
      exact .inr ⟨rfl, rfl⟩
    | succ n =>
      left
      have hz : get_node_type 0 (List.replicate (n + 1) 0) = .ZERO_NODE := by
        simp [get_node_type, hchk, zero_min_size]
      simp only [build_tree, build_tree_go, fast_classify, hz] at h
      simp at h
      exact h.symm
  · by_cases hle : M ≤ N
    · left
      have hz : get_node_type M (List.replicate N 0) = .ZERO_NODE := by
        have hzm : zero_min_size M = M := if_neg hM0
        simp [get_node_type, hchk, hzm, hle]
      simp only [build_tree, build_tree_go, fast_classify, hz] at h
      simp at h
      exact h.symm
    · exfalso
      refine build_go_fail_of_small _ M (List.replicate N 0) hM0 ?_ t h
      simp only [List.length_replicate]
      omega

theorem sum_eq_count_one : ∀ (l : List Nat), (∀ x ∈ l, x ≤ 1) → l.sum = l.count 1 := by
  intro l
  induction l with
  | nil => intro _; rfl
  | cons a t ih =>
    intro h
    have ha : a ≤ 1 := h a (by simp)
    have ht : ∀ x ∈ t, x ≤ 1 := fun x hx => h x (by simp [hx])
    interval_cases a
    · simp [List.count_cons, ih ht]
    · simp [List.count_cons, ih ht]
      omega

theorem three_ne_two_pow : ∀ k : Nat, (3 : Nat) ≠ 2 ^ k := by
  intro k h
  rcases k with _ | _ | k
  · norm_num at h
  · norm_num at h
  · have h1 : 1 ≤ 2 ^ k := Nat.one_le_two_pow
    rw [pow_succ, pow_succ] at h
    omega

/-- The decoder over the single-REPETITION-leaf tree built from the mask
`[0, 1]` (with `code_min_size = 0`), fresh from construction. -/
def rep_dec0 : FastSSCDecoder := mk_decoder (.leaf [0, 1] .REPETITION)

/-- `rep_dec0` after one decode call with LLR vector `[-5, -5]`. -/
def rep_dec1 : FastSSCDecoder :=
  { decoding_tree := .leaf [0, 1] .REPETITION [-5, -5] [1, 1] false,
    position := 2, is_systematic := true }

/-- `rep_dec0` right after the reset phase of a decode call with
LLRs `[-5, -5]`, before any leaf is processed. -/
def rep_dec0_reset : FastSSCDecoder :=
  { decoding_tree := .leaf [0, 1] .REPETITION [-5, -5] [0, 0] false,
    position := 0, is_systematic := true }

/-- `rep_dec1` right after the reset phase of a second decode call with
LLRs `[-5, -5]`, before any leaf is processed. -/
def rep_dec1_reset : FastSSCDecoder :=
  { decoding_tree := .leaf [0, 1] .REPETITION [-5, -5] [1, 1] false,
    position := 0, is_systematic := true }

/-- The tree the plain decoder builds over mask `[1, 0, 1, 1]` with
`code_min_size = 2`: an OTHER leaf over `[1, 0]` and a ONE leaf over
`[1, 1]`. -/
def exampleTree : DTree := .node [1, 0, 1, 1] (.leaf [1, 0] .OTHER) (.leaf [1, 1] .ONE_NODE)

/-- The decoder over the single-OTHER-leaf tree of mask `[1, 0]` with
`code_min_size = 2`. -/
def other_dec0 : FastSSCDecoder := mk_decoder (.leaf [1, 0] .OTHER)

/-- `other_dec0` after one decode call with LLR vector `[3, -3]`. -/
def other_dec1 : FastSSCDecoder :=
  { decoding_tree := .leaf [1, 0] .OTHER [3, -3] [0, 0] false,
    position := 2, is_systematic := true }

/-- C1 counterexample: the generalized decoder with `N = 8`, `AF = 1`
classifies the node over mask `[0,0,0,0,0,1,1,1]` as G_REPETITION, not as
RG_PARITY as the claim states: the G-repetition check runs first and this
mask satisfies it at `T = 2`. -/
theorem claim1_rg_parity_counterexample :
    (gen_get_node_type 1 0 [0, 0, 0, 0, 0, 1, 1, 1]).map (fun x => x.1) =
      .ok .G_REPETITION
    ∧ NodeType.G_REPETITION ≠ .RG_PARITY := ⟨rfl, by decide⟩

/-- C1 (amended): for the generalized decoder with `N = 8` and `AF = 1`,
the mask `[0,0,0,0,0,1,1,1]` splits at `T = 2` into the halves
`[0,0,0,0]` and `[0,1,1,1]` and is classified G_REPETITION (the first
chunk is zero and the last chunk is a valid SPC, which the G-repetition
check — run before the RG-parity check — accepts) with `mask_steps = 2`
and `last_chunk_type = 0`. -/
theorem claim1_g_repetition_classification :
    np_split [0, 0, 0, 0, 0, 1, 1, 1] 2 = .ok [[0, 0, 0, 0], [0, 1, 1, 1]]
    ∧ gen_get_node_type 1 0 [0, 0, 0, 0, 0, 1, 1, 1] =
        .ok (.G_REPETITION, some 2, some 0) := ⟨rfl, rfl⟩

/-- C2 counterexample: after a decode call, a second call's reset phase
(everything `decode_internal` runs before the first leaf is processed)
leaves the root's `beta` at the previous call's value `[1, 1]` — the
per-call mutable `beta` state is not reset before leaf processing. -/
theorem claim2_beta_not_reset_counterexample :
    decode_internal rep_dec0 [-5, -5] = .ok (some [1, 1], rep_dec1)
    ∧ reset_phase rep_dec1 [-5, -5] = .ok rep_dec1_reset
    ∧ rep_dec1_reset.decoding_tree.beta = [1, 1]
    ∧ ([1, 1] : List Int) ≠ np_zeros 2 := ⟨rfl, rfl, rfl, by decide⟩

/-- C2 (amended): at the start of every decode call the `is_computed`
flags of all nodes and the position cursor are reset and the root's
`alpha` is overwritten with the received LLRs, before any leaf is
processed; the nodes' `beta` vectors and non-root `alpha` vectors are not
reset up front, but no state from a previous decode invocation leaks into
the current one — a decode performed after any earlier decode returns
exactly what it would have returned without it. -/
theorem claim2_reset_and_no_leak (d : FastSSCDecoder) (llr : List Int) :
    (∀ d₁, reset_phase d llr = .ok d₁ →
        all_not_computed d₁.decoding_tree = true ∧ d₁.position = 0 ∧
          d₁.decoding_tree.alpha = llr)
    ∧ ∀ (r : Option (List Int)) (d₁ : FastSSCDecoder) (llr₂ : List Int),
        decode_internal d llr = .ok (r, d₁) →
          decodeResult d₁ llr₂ = decodeResult d llr₂ := by
  constructor
  · intro d₁ h
    simp only [reset_phase, set_initial_state] at h
    cases hsa : d.decoding_tree.set_alpha llr with
    | error e => simp [hsa] at h
    | ok root =>
      simp only [hsa] at h
      cases h
      refine ⟨reset_all_not_computed root, rfl, ?_⟩
      rw [reset_alpha]
      rcases set_alpha_cases d.decoding_tree llr with ⟨_, s₂, hok, hα, _, _⟩ | ⟨_, herr⟩
      · rw [hsa] at hok
        cases hok
        exact hα
      · rw [hsa] at herr
        exact absurd herr (by simp)
  · intro r d₁ llr₂ h
    obtain ⟨hW, hsys⟩ := decode_procEqW d llr r d₁ h
    exact decode_congr d₁ d llr₂ (procEqW_symm hW) hsys

/-- C2 witness: concrete instantiation of the reset facts and of the
no-leak equation on the repetition-leaf decoder. -/
theorem claim2_reset_and_no_leak_witness :
    (all_not_computed rep_dec0_reset.decoding_tree = true ∧ rep_dec0_reset.position = 0
      ∧ rep_dec0_reset.decoding_tree.alpha = [-5, -5])
    ∧ decodeResult rep_dec1 [9, 9] = decodeResult rep_dec0 [9, 9] :=
  ⟨(claim2_reset_and_no_leak rep_dec0 [-5, -5]).1 rep_dec0_reset (by rfl),
   (claim2_reset_and_no_leak rep_dec0 [-5, -5]).2 (some [1, 1]) rep_dec1 [9, 9] (by rfl)⟩

/-- C3 counterexample: the mask `[0, 0, 0]`, whose length 3 is not a power
of two, constructs a decoder node without any error (it classifies as
ZERO, so the tree build never splits it). -/
theorem claim3_non_pow2_ok_counterexample :
    build_tree (fast_classify 0) 0 [0, 0, 0] = .ok (.leaf [0, 0, 0] .ZERO_NODE)
    ∧ (∀ k : Nat, (3 : Nat) ≠ 2 ^ k) := ⟨rfl, three_ne_two_pow⟩

/-- C3 (amended): constructing a decoder node raises an error at
construction time when the recursive tree build reaches an OTHER-classified
node whose odd size differs from the `N_min` floor (the `np.split` of an
odd mask into two halves fails); it is not true for every mask whose
length is not a power of two — fast-decodable masks such as `[0,0,0]`
construct successfully. -/
theorem claim3_odd_other_split_raises (M : Nat) (mask : List Nat)
    (h1 : get_node_type M mask = .OTHER) (h2 : mask.length ≠ M)
    (h3 : mask.length % 2 = 1) :
    build_tree (fast_classify M) M mask =
      .error "array split does not result in an equal division" := by
  have h0 : mask.length ≠ 0 := by omega
  have h4 : ¬ (mask.length % 2 = 0) := by omega
  simp [build_tree, build_tree_go, fast_classify, h1, h2, h0, h4]

/-- C3 witness: the OTHER-classified odd mask `[0, 1, 1]` raises the
split error at construction. -/
theorem claim3_odd_other_split_raises_witness :
    get_node_type 0 [0, 1, 1] = .OTHER ∧ ([0, 1, 1] : List Nat).length ≠ 0
    ∧ ([0, 1, 1] : List Nat).length % 2 = 1
    ∧ build_tree (fast_classify 0) 0 [0, 1, 1] =
        .error "array split does not result in an equal division" :=
  ⟨by decide, by decide, by decide,
   claim3_odd_other_split_raises 0 [0, 1, 1] (by decide) (by decide) (by decide)⟩

/-- C4: two successive decode calls on the same decoder instance with the
same LLR input return bit-identical output, whatever mutable state the
instance carried before the first call. -/
theorem claim4_two_run_determinism (d : FastSSCDecoder) (llr : List Int)
    (r₁ r₂ : Option (List Int)) (d₁ d₂ : FastSSCDecoder)
    (h₁ : decode_internal d llr = .ok (r₁, d₁))
    (h₂ : decode_internal d₁ llr = .ok (r₂, d₂)) : r₁ = r₂ := by
  obtain ⟨hW, hsys⟩ := decode_procEqW d llr r₁ d₁ h₁
  have hcong := decode_congr d d₁ llr hW hsys.symm
  have e₁ : decodeResult d llr = .ok r₁ := by simp [decodeResult, h₁, Except.map]
  have e₂ : decodeResult d₁ llr = .ok r₂ := by simp [decodeResult, h₂, Except.map]
  rw [e₁, e₂] at hcong
  exact Except.ok.inj hcong

/-- C4 witness: decoding twice with `[-5, -5]` on the repetition-leaf
decoder returns `some [1, 1]` both times. -/
theorem claim4_two_run_determinism_witness :
    decode_internal rep_dec0 [-5, -5] = .ok (some [1, 1], rep_dec1)
    ∧ decode_internal rep_dec1 [-5, -5] = .ok (some [1, 1], rep_dec1)
    ∧ (some [1, 1] : Option (List Int)) = some [1, 1] :=
  ⟨by rfl, by rfl,
   claim4_two_run_determinism rep_dec0 [-5, -5] (some [1, 1]) (some [1, 1])
     rep_dec1 rep_dec1 (by rfl) (by rfl)⟩

/-- C5: for every decoder (any classification function — covering both
the plain and the generalized variant with any `AF` — any `code_min_size`
and any mask) whose tree construction succeeds, concatenating the masks of
the tree's leaves in left-to-right order reproduces the root mask. -/
theorem claim5_leaves_partition (classify : List Nat → Except String NodeType)
    (M : Nat) (mask : List Nat) (t : DTree)
    (h : build_tree classify M mask = .ok t) : leaves_concat t = mask :=
  build_go_leaves_concat _ classify M mask t h

/-- C5 witness: the two-leaf tree over `[1, 0, 1, 1]` with
`code_min_size = 2`. -/
theorem claim5_leaves_partition_witness :
    build_tree (fast_classify 2) 2 [1, 0, 1, 1] = .ok exampleTree
    ∧ leaves_concat exampleTree = [1, 0, 1, 1] :=
  ⟨rfl, claim5_leaves_partition (fast_classify 2) 2 [1, 0, 1, 1] exampleTree rfl⟩

/-- C6: on bit masks (entries 0/1), `get_node_type` always returns the
first matching membership in the priority order ZERO, ONE,
SINGLE_PARITY_CHECK, REPETITION — in particular for every mask satisfying
more than one membership condition. -/
theorem claim6_type_priority (M : Nat) (mask : List Nat)
    (hb : ∀ x ∈ mask, x ≤ 1) :
    get_node_type M mask = priority_first M mask := by
  have hs : mask.sum = mask.count 1 := sum_eq_count_one mask hb
  simp only [get_node_type, priority_first, zero_member, one_member, spc_member,
    rep_member, check_is_zero, check_is_one, check_is_spc, check_is_parity]
  simp only [hs]
  simp only [Bool.and_comm (decide (spc_min_size M ≤ mask.length)),
    Bool.and_comm (decide (repetition_min_size M ≤ mask.length))]

/-- C6 witness: the mask `[0, 1]` with `N_min = 1` satisfies both the SPC
and the REPETITION membership; classification returns
SINGLE_PARITY_CHECK, the first of the two in priority order. -/
theorem claim6_type_priority_witness :
    (∀ x ∈ ([0, 1] : List Nat), x ≤ 1)
    ∧ spc_member 1 [0, 1] = true ∧ rep_member 1 [0, 1] = true
    ∧ get_node_type 1 [0, 1] = priority_first 1 [0, 1]
    ∧ get_node_type 1 [0, 1] = .SINGLE_PARITY_CHECK :=
  ⟨by decide, by decide, by decide, claim6_type_priority 1 [0, 1] (by decide), by decide⟩

/-- C7: every decoder whose tree construction succeeds over an all-zero
mask decodes every LLR vector of the configured length to the all-zero
bit vector. -/
theorem claim7_all_frozen_zero_output (N M : Nat) (llr : List Int) (t : DTree)
    (hb : build_tree (fast_classify M) M (List.replicate N 0) = .ok t)
    (hl : llr.length = N) :
    decodeResult (mk_decoder t) llr = .ok (some (List.replicate N (0 : Int))) := by
  rcases build_all_zero N M t hb with ht | ⟨hN, ht⟩
  · subst ht
    simp [decodeResult, decode_internal, reset_phase, set_initial_state, mk_decoder,
      init_node, SNode.set_alpha, reset_is_computed, process_tree, process_with,
      SNode.alpha, SNode.beta, SNode.compute_leaf_beta, result, np_zeros,
      Except.map, hl]
  · subst hN
    subst ht
    have hnil : llr = [] := List.eq_nil_of_length_eq_zero hl
    subst hnil
    rfl

/-- C7 witness: the ZERO-leaf decoder over `[0, 0]` maps `[7, -7]` to
`[0, 0]`. -/
theorem claim7_all_frozen_zero_output_witness :
    build_tree (fast_classify 0) 0 (List.replicate 2 0) = .ok (.leaf [0, 0] .ZERO_NODE)
    ∧ ([7, -7] : List Int).length = 2
    ∧ decodeResult (mk_decoder (.leaf [0, 0] .ZERO_NODE)) [7, -7] =
        .ok (some (List.replicate 2 (0 : Int))) :=
  ⟨rfl, rfl,
   claim7_all_frozen_zero_output 2 0 [7, -7] (.leaf [0, 0] .ZERO_NODE) rfl rfl⟩

/-- C8: for every classification function and every mask of power-of-two
length, building the tree with `code_min_size` equal to the mask length
yields exactly the root as a single childless leaf. -/
theorem claim8_min_size_floor_single_leaf
    (classify : List Nat → Except String NodeType) (M : Nat) (mask : List Nat)
    (ty : NodeType) (k : Nat) (hty : classify mask = .ok ty)
    (hM : M = mask.length) (hk : mask.length = 2 ^ k) :
    build_tree classify M mask = .ok (.leaf mask ty) := by
  subst hM
  simp only [build_tree, build_tree_go, hty]
  by_cases h1 : ty = .OTHER
  · simp [h1]
  · simp [h1]

/-- C8 witness: mask `[0, 1]` (length `2 = 2^1`) with `code_min_size = 2`
builds the single SPC leaf. -/
theorem claim8_min_size_floor_single_leaf_witness :
    fast_classify 2 [0, 1] = .ok .SINGLE_PARITY_CHECK
    ∧ (2 : Nat) = ([0, 1] : List Nat).length
    ∧ ([0, 1] : List Nat).length = 2 ^ 1
    ∧ build_tree (fast_classify 2) 2 [0, 1] = .ok (.leaf [0, 1] .SINGLE_PARITY_CHECK) :=
  ⟨rfl, by decide, by decide,
   claim8_min_size_floor_single_leaf (fast_classify 2) 2 [0, 1]
     .SINGLE_PARITY_CHECK 1 rfl (by decide) (by decide)⟩

/-- C9: invoking `compute_leaf_beta` on any node that has children raises
`TypeError('Cannot make decision in not a leaf node.')`; the error is
raised before any branch could touch `beta`, so the state is never
modified. -/
theorem claim9_nonleaf_decision_raises (m : List Nat) (a b : List Int)
    (c : Bool) (l r : SNode) :
    SNode.compute_leaf_beta (.node m a b c l r) =
      .error "Cannot make decision in not a leaf node." := rfl

/-- C10 (amended): `compute_leaf_beta` on an OTHER leaf raises no error
and returns the node with `beta` (and everything else) entirely
unchanged, and a full decode call preserves the `beta` of every OTHER
leaf — it stays the all-zero vector it was initialized with; however, the
decoded output bits at the positions covered by such a leaf may still
depend on the received LLRs through the butterfly combination with the
sibling betas. -/
theorem claim10_other_leaf_frame (d : FastSSCDecoder) (llr : List Int)
    (r : Option (List Int)) (d' : FastSSCDecoder)
    (h : decode_internal d llr = .ok (r, d')) :
    other_leaf_betas d'.decoding_tree = other_leaf_betas d.decoding_tree
    ∧ ∀ (m : List Nat) (a b : List Int) (c : Bool),
        SNode.compute_leaf_beta (.leaf m .OTHER a b c) = .ok (.leaf m .OTHER a b c) :=
  ⟨procEqW_other_leaf_betas (procEqW_symm (decode_procEqW d llr r d' h).1),
   fun _ _ _ _ => rfl⟩

/-- C10 witness: decoding the single-OTHER-leaf decoder leaves the
OTHER-leaf betas untouched, and `compute_leaf_beta` on a concrete OTHER
leaf is the identity. -/
theorem claim10_other_leaf_frame_witness :
    decode_internal other_dec0 [3, -3] = .ok (some [0, 0], other_dec1)
    ∧ other_leaf_betas other_dec1.decoding_tree = other_leaf_betas other_dec0.decoding_tree
    ∧ SNode.compute_leaf_beta (.leaf [1, 0] .OTHER [3, -3] [0, 0] false) =
        .ok (.leaf [1, 0] .OTHER [3, -3] [0, 0] false) :=
  ⟨rfl,
   (claim10_other_leaf_frame other_dec0 [3, -3] (some [0, 0]) other_dec1 rfl).1,
   (claim10_other_leaf_frame other_dec0 [3, -3] (some [0, 0]) other_dec1 rfl).2
     [1, 0] [3, -3] [0, 0] false⟩

/-- C10 counterexample: the decoder over `[1, 0, 1, 1]` with
`code_min_size = 2` has an OTHER leaf covering positions 0 and 1, yet the
decoded output at those positions differs between the LLR inputs
`[5,5,5,5]` (output `[0,0,0,0]`) and `[-5,-5,-5,-5]` (output
`[1,1,1,1]`): the decoded bits covered by an OTHER leaf do depend on the
received LLRs. -/
theorem claim10_other_leaf_output_depends_on_llr :
    build_tree (fast_classify 2) 2 [1, 0, 1, 1] = .ok exampleTree
    ∧ (mk_decoder exampleTree).decoding_tree =
        .node [1, 0, 1, 1] [0, 0, 0, 0] [0, 0, 0, 0] false
          (.leaf [1, 0] .OTHER [0, 0] [0, 0] false)
          (.leaf [1, 1] .ONE_NODE [0, 0] [0, 0] false)
    ∧ decodeResult (mk_decoder exampleTree) [5, 5, 5, 5] = .ok (some [0, 0, 0, 0])
    ∧ decodeResult (mk_decoder exampleTree) [-5, -5, -5, -5] = .ok (some [1, 1, 1, 1])
    ∧ ([0, 0] : List Int) ≠ [1, 1] := ⟨rfl, rfl, rfl, rfl, by decide⟩

end PolarFastSSC
